import Mathlib

/-!
Verification of `assets/js/app.js`, the LiveView hooks of the cai front end

A shallow embedding of the hook table of `assets/js/app.js`.

* A JavaScript string is a list of characters (`JSString`); every character the
  code inspects (`;`, `=`, `.`, digits, signs, white space) is a single code unit, so
  the list view agrees with the code-unit view of the language.
* A JavaScript number is `Option Int` (`none` is `NaN`). The numbers the hooks compute
  with are integers; below `2 ^ 53` the embedding is exact, and above it the only
  use made of a number is the range check of `Date`, which rounding does not change.
  The volume of an element is a rational number, `value / 100` taken exactly, and
  the setter of `volume` rejects a value outside 0 to 1 as a media element does.
* The DOM is explicit state: an element is a record, a document a list of elements,
  the console a list of messages.
* Platform services that are no part of the file (the locale formatting of `Date`,
  the selector engine behind `document.querySelector`) are parameters.
-/

namespace CaiApp

/-! ## Strings -/

/-- A JavaScript string. -/
abbrev JSString := List Char

/-- The characters removed by `String.prototype.trim` and skipped by `parseInt`:
the `WhiteSpace` and `LineTerminator` productions of ECMAScript. -/
def isWhiteSpace (c : Char) : Bool :=
  c.toNat = 0x09 || c.toNat = 0x0A || c.toNat = 0x0B || c.toNat = 0x0C || c.toNat = 0x0D ||
  c.toNat = 0x20 || c.toNat = 0xA0 || c.toNat = 0x1680 ||
  (0x2000 ≤ c.toNat && c.toNat ≤ 0x200A) ||
  c.toNat = 0x2028 || c.toNat = 0x2029 || c.toNat = 0x202F || c.toNat = 0x205F ||
  c.toNat = 0x3000 || c.toNat = 0xFEFF

/-- `s.trim()`: white space removed at both ends. -/
def trim (s : JSString) : JSString :=
  (s.dropWhile isWhiteSpace).rdropWhile isWhiteSpace

/-- `s.startsWith(p)`. -/
def startsWith (s p : JSString) : Bool :=
  p.isPrefixOf s

/-- `s.split(sep)` for a separator of one character: the maximal runs of `s` free of
`sep`, in order; never the empty array (`"".split(";")` is `[""]`). -/
def split (sep : Char) : JSString → List JSString
  | [] => [[]]
  | c :: cs =>
    if c = sep then [] :: split sep cs
    else
      match split sep cs with
      | [] => [[c]]
      | h :: t => (c :: h) :: t

/-- `s.replace(pat, rep)` for a string pattern and a replacement without `$`: the first
occurrence of `pat` in `s` is replaced, later ones are kept. -/
def replace : JSString → JSString → JSString → JSString
  | [], pat, rep => if pat = [] then rep else []
  | c :: cs, pat, rep =>
    if pat.isPrefixOf (c :: cs) then rep ++ (c :: cs).drop pat.length
    else c :: replace cs pat rep

/-! ## `Hooks.PinButton` -/

/-- An event pushed to the server with `this.pushEvent(name, payload)`; the payload is
an object given by its fields. -/
structure PushedEvent where
  name : JSString
  payload : List (JSString × JSString)
deriving DecidableEq, Repr

/-- The expression of line 107,
`cookies.split(';').find(p => p.trim().startsWith('pinned='))?.split('=')[1] || ''`. -/
def pinnedOfCookies (cookies : JSString) : JSString :=
  match (split ';' cookies).find? (fun cookie_pairs => startsWith (trim cookie_pairs) "pinned=".toList) with
  | none => []
  | some pair =>
    match (split '=' pair).get? 1 with
    | none => []
    | some v => if v = [] then [] else v

/-- The call `this.pushEvent("set-pinned", { pinned })` of `PinButton.mounted`, as a
function of `document.cookie`. -/
def PinButton.mounted (cookies : JSString) : List PushedEvent :=
  [⟨"set-pinned".toList, [("pinned".toList, pinnedOfCookies cookies)]⟩]

/-- The handler of the server's "set-pinned" event: the string it assigns to
`document.cookie`. -/
def PinButton.onSetPinned (new_pinned : JSString) : JSString :=
  "pinned=".toList ++ new_pinned ++ ";path=/;samesite=lax".toList

/-! ## Numbers, `parseInt` and `Date` -/

/-- A JavaScript number holding an integer, or `NaN` (`none`). -/
abbrev JSNumber := Option Int

/-- `ToBoolean` of a number: `NaN` and zero are falsy. -/
def JSNumber.toBoolean : JSNumber → Bool
  | none => false
  | some n => n != 0

/-- The product `timestamp * 1000`; `NaN` is absorbing. -/
def JSNumber.mul (x : JSNumber) (k : Int) : JSNumber :=
  x.map (fun n => n * k)

/-- Decimal digits of a natural number, most significant first. -/
def natToString (n : Nat) : JSString :=
  Nat.toDigits 10 n

/-- `String(n)` for an integer. -/
def intToString : Int → JSString
  | Int.ofNat n => natToString n
  | Int.negSucc n => '-' :: natToString (n + 1)

/-- `String(x)` for a number of the embedding. -/
def JSNumber.toString : JSNumber → JSString
  | none => "NaN".toList
  | some n => intToString n

/-- Value of a character as a digit, letters counting from ten, in either case. -/
def digitValue (c : Char) : Option Nat :=
  if '0'.toNat ≤ c.toNat ∧ c.toNat ≤ '9'.toNat then some (c.toNat - '0'.toNat)
  else if 'a'.toNat ≤ c.toNat ∧ c.toNat ≤ 'z'.toNat then some (c.toNat - 'a'.toNat + 10)
  else if 'A'.toNat ≤ c.toNat ∧ c.toNat ≤ 'Z'.toNat then some (c.toNat - 'A'.toNat + 10)
  else none

/-- Whether `c` is a digit of the given radix. -/
def isRadixDigit (radix : Nat) (c : Char) : Bool :=
  match digitValue c with
  | some d => decide (d < radix)
  | none => false

/-- Value of a run of digits in the given radix. -/
def digitsValue (radix : Nat) (z : JSString) : Nat :=
  z.foldl (fun acc c => acc * radix + (digitValue c).getD 0) 0

/-- The sign step of `parseInt`: a leading `-` makes the result negative, a leading
`+` or `-` is removed. -/
def parseIntSign : JSString → Int × JSString
  | '-' :: r => (-1, r)
  | '+' :: r => (1, r)
  | s => (1, s)

/-- The radix step of `parseInt` with no radix argument: a leading `0x` or `0X` is
removed and selects radix sixteen, otherwise the radix is ten. -/
def parseIntRadix : JSString → Nat × JSString
  | '0' :: 'x' :: r => (16, r)
  | '0' :: 'X' :: r => (16, r)
  | s => (10, s)

/-- `parseInt(s)` with no radix argument: leading white space is skipped, a sign is
read, a `0x` or `0X` switches to radix sixteen, the longest run of digits is
taken and whatever follows it is ignored; no digit at all gives `NaN`. -/
def parseInt (s : JSString) : JSNumber :=
  let signed := parseIntSign (s.dropWhile isWhiteSpace)
  let based := parseIntRadix signed.2
  let z := based.2.takeWhile (isRadixDigit based.1)
  if z = [] then none else some (signed.1 * (digitsValue based.1 z : Nat))

/-- A `Date` object: its time value in milliseconds since the epoch, or no time value
(an invalid date). -/
structure Date where
  timeValue : Option Int
deriving DecidableEq, Repr

/-- The largest time value of a `Date`, `8.64e15` milliseconds. -/
def Date.maxTime : Int := 8640000000000000

/-- `new Date(x)` for a number: `TimeClip` turns `NaN` and every value beyond
`± 8.64e15` into an invalid date. -/
def Date.new : JSNumber → Date
  | none => ⟨none⟩
  | some ms => if -Date.maxTime ≤ ms ∧ ms ≤ Date.maxTime then ⟨some ms⟩ else ⟨none⟩

/-- `ToBoolean` of a `Date`: an object is truthy, whatever its time value. -/
def Date.toBoolean (_d : Date) : Bool := true

/-- The locale and time zone of the browser: the strings `toLocaleDateString()`,
`toLocaleTimeString()` and `toLocaleTimeString({}, { hour12: false })` give for a
valid time value. -/
structure Locale where
  dateString : Int → JSString
  timeString : Int → JSString
  timeString24 : Int → JSString

/-- The text every locale method gives for an invalid date. -/
def invalidDateText : JSString := "Invalid Date".toList

/-- `d.toLocaleDateString()`. -/
def Date.toLocaleDateString (L : Locale) (d : Date) : JSString :=
  match d.timeValue with
  | some ms => L.dateString ms
  | none => invalidDateText

/-- `d.toLocaleTimeString()`. -/
def Date.toLocaleTimeString (L : Locale) (d : Date) : JSString :=
  match d.timeValue with
  | some ms => L.timeString ms
  | none => invalidDateText

/-- `d.toLocaleTimeString({}, { hour12: false })`. -/
def Date.toLocaleTimeString24 (L : Locale) (d : Date) : JSString :=
  match d.timeValue with
  | some ms => L.timeString24 ms
  | none => invalidDateText

/-! ## Elements -/

/-- A DOM element, reduced to what the hooks read and write. -/
structure Element where
  id : JSString
  classList : List JSString
  textContent : JSString
  attributes : List (JSString × JSString)
  volume : ℚ
  playCalls : Nat
deriving DecidableEq

/-- `el.getAttribute(name)`. -/
def Element.getAttribute (el : Element) (name : JSString) : Option JSString :=
  (el.attributes.find? (fun kv => kv.1 = name)).map Prod.snd

/-- Replace the value of the first attribute called `name`, or append the
attribute when there is none. -/
def setAttr (name value : JSString) : List (JSString × JSString) → List (JSString × JSString)
  | [] => [(name, value)]
  | kv :: rest => if kv.1 = name then (name, value) :: rest else kv :: setAttr name value rest

/-- `el.setAttribute(name, value)`. -/
def Element.setAttribute (el : Element) (name value : JSString) : Element :=
  { el with attributes := setAttr name value el.attributes }

/-! ## Timestamp extraction and formatting -/

/-- The diagnostic of line 29. -/
def notAnIntMessage (textContent : JSString) : JSString :=
  "formatTimestamp: element's inner HTML is not an int: ".toList ++ textContent

/-- The diagnostic of line 36. -/
def couldNotParseMessage (ms : JSNumber) : JSString :=
  "formatTimestamp: could not parse new Date(".toList ++ ms.toString ++ ")".toList

/-- `extractDateTime(element)`: the value returned (`none` is `undefined`) and the
messages sent to `console.error`. -/
def extractDateTime (element : Element) : Option Date × List JSString :=
  let timestamp := parseInt element.textContent
  if !timestamp.toBoolean then
    (none, [notAnIntMessage element.textContent])
  else
    let dateTimeObject := Date.new (timestamp.mul 1000)
    if !dateTimeObject.toBoolean then
      (none, [couldNotParseMessage (timestamp.mul 1000)])
    else
      (some dateTimeObject, [])

/-- `formatTimestamp(context)` on `context.el`: the element afterwards and the
messages sent to `console.error`. -/
def formatTimestamp (L : Locale) (el : Element) : Element × List JSString :=
  match extractDateTime el with
  | (none, log) => (el, log)
  | (some dateTimeObject, log) =>
    ({ el with textContent :=
        dateTimeObject.toLocaleDateString L ++ " @ ".toList ++ dateTimeObject.toLocaleTimeString L },
      log)

/-- `hoverFormatTimestamp(context)` on `context.el`: the element afterwards and the
messages sent to `console.error`. -/
def hoverFormatTimestamp (L : Locale) (el : Element) : Element × List JSString :=
  match extractDateTime el with
  | (none, log) => (el, log)
  | (some dateTimeObject, log) =>
    (({ el with textContent := dateTimeObject.toLocaleTimeString24 L }).setAttribute
        "title".toList
        (dateTimeObject.toLocaleDateString L ++ " @ ".toList ++ dateTimeObject.toLocaleTimeString L),
      log)

/-! ## A concrete locale: `en-US` in the UTC time zone -/

/-- Two decimal digits. -/
def twoDigits (n : Nat) : JSString :=
  if n < 10 then '0' :: natToString n else natToString n

/-- Year, month and day of the proleptic Gregorian calendar for a day number counted
from 1970-01-01. -/
def civilFromDays (z : Int) : Int × Nat × Nat :=
  let z := z + 719468
  let era := z / 146097
  let doe := (z - era * 146097).toNat
  let yoe := (doe - doe / 1460 + doe / 36524 - doe / 146096) / 365
  let doy := doe - (365 * yoe + yoe / 4 - yoe / 100)
  let mp := (5 * doy + 2) / 153
  let d := doy - (153 * mp + 2) / 5 + 1
  let m := if mp < 10 then mp + 3 else mp - 9
  let y : Int := (yoe : Int) + era * 400
  (if m ≤ 2 then y + 1 else y, m, d)

/-- The `en-US` date of a time value in UTC, `M/D/YYYY`; a year before the year one is
written as its year of era. -/
def enUSDate (ms : Int) : JSString :=
  let ymd := civilFromDays (ms / 86400000)
  let year := if ymd.1 ≤ 0 then (1 - ymd.1).toNat else ymd.1.toNat
  natToString ymd.2.1 ++ '/' :: natToString ymd.2.2 ++ '/' :: natToString year

/-- Seconds elapsed in the UTC day of a time value. -/
def secondOfDay (ms : Int) : Nat :=
  ((ms % 86400000) / 1000).toNat

/-- The `en-US` twelve-hour time of a time value in UTC, `h:mm:ss AM`. -/
def enUSTime (ms : Int) : JSString :=
  let s := secondOfDay ms
  let h := s / 3600
  let h12 := if h % 12 = 0 then 12 else h % 12
  natToString h12 ++ ':' :: twoDigits (s / 60 % 60) ++ ':' :: twoDigits (s % 60) ++
    (if h < 12 then " AM".toList else " PM".toList)

/-- The `en-US` time of a time value in UTC on the twenty-four hour clock, `HH:mm:ss`. -/
def enUSTime24 (ms : Int) : JSString :=
  let s := secondOfDay ms
  twoDigits (s / 3600) ++ ':' :: twoDigits (s / 60 % 60) ++ ':' :: twoDigits (s % 60)

/-- A browser set to `en-US` in the UTC time zone. -/
def enUS : Locale := ⟨enUSDate, enUSTime, enUSTime24⟩

/-- An element with the given text and nothing else. -/
def textElement (text : JSString) : Element :=
  ⟨[], [], text, [], 1, 0⟩

/-! ## `Hooks.BlurbPlayer` -/

/-- The page: its elements in document order. -/
abbrev Document := List Element

/-- An exception raised by a platform call. -/
structure DOMException where
  name : JSString
deriving DecidableEq, Repr

/-- The selector engine behind `document.querySelector`: for a document and a selector
it gives the position of the first matching element, `none` for `null`, or the
exception raised for a selector it rejects. -/
abbrev QuerySelector := Document → JSString → Except DOMException (Option Nat)

/-- Lines 80 and 81: the selector built from the track of a "play-blurb" event. -/
def blurbSelector (track : JSString) : JSString :=
  let track := replace track ".".toList "".toList
  "#blurb-source-".toList ++ track

/-- `audioElement.play()` on the element at position `i`: one more call recorded on
that element. -/
def playAt : Nat → Document → Document
  | _, [] => []
  | 0, el :: rest => { el with playCalls := el.playCalls + 1 } :: rest
  | i + 1, el :: rest => el :: playAt i rest

/-- The handler of "play-blurb" registered by `BlurbPlayer.mounted`. -/
def BlurbPlayer.onPlayBlurb (querySelector : QuerySelector) (doc : Document)
    (track : JSString) : Except DOMException Document :=
  match querySelector doc (blurbSelector track) with
  | .error e => .error e
  | .ok none => .ok doc
  | .ok (some audioElement) => .ok (playAt audioElement doc)

/-- Characters of which the identifiers understood by `idSelectorEngine` are made. -/
def isNameChar (c : Char) : Bool :=
  c.isAlphanum || c = '-' || c = '_'

/-- A small selector engine, for evaluation on concrete pages: it understands the ID
selectors `#name` and rejects every other selector. -/
def idSelectorEngine : QuerySelector := fun doc selector =>
  match selector with
  | '#' :: name =>
    if name ≠ [] ∧ name.all isNameChar then .ok (doc.findIdx? (fun el => el.id = name))
    else .error ⟨"SyntaxError".toList⟩
  | _ => .error ⟨"SyntaxError".toList⟩

/-! ## `Hooks.BlurbVolumeControl` -/

/-- `document.querySelectorAll(".blurb-source-audio")` and the like: the positions of
the elements that carry the class, in document order. -/
def querySelectorAllClass (doc : Document) (cls : JSString) : List Nat :=
  (List.range doc.length).filter (fun i =>
    match doc.get? i with
    | some el => el.classList.contains cls
    | none => false)

/-- The setter of `volume` on a media element: a value from 0 to 1 is stored, any other
value raises `IndexSizeError` and stores nothing. -/
def Element.setVolume (el : Element) (v : ℚ) : Except DOMException Element :=
  if 0 ≤ v ∧ v ≤ 1 then .ok { el with volume := v }
  else .error ⟨"IndexSizeError".toList⟩

/-- The assignment `audio.volume = v` on the element at position `i`. -/
def setVolumeAt (v : ℚ) : Nat → Document → Except DOMException Document
  | _, [] => .ok []
  | 0, el :: rest =>
    match el.setVolume v with
    | .ok el2 => .ok (el2 :: rest)
    | .error e => .error e
  | i + 1, el :: rest =>
    match setVolumeAt v i rest with
    | .ok rest2 => .ok (el :: rest2)
    | .error e => .error e

/-- The loop of lines 97 to 99 over the elements found: the page when the loop ends,
and the exception that ended it, if any. -/
def setVolumes (v : ℚ) : List Nat → Document → Document × Option DOMException
  | [], doc => (doc, none)
  | audio :: rest, doc =>
    match setVolumeAt v audio doc with
    | .ok doc2 => setVolumes v rest doc2
    | .error e => (doc, some e)

/-- What a handler leaves behind: the page, the messages sent to `console.log`, and the
exception it raised, if any. -/
structure HandlerResult where
  doc : Document
  console : List JSString
  error : Option DOMException
deriving DecidableEq

/-- The handler of "change-blurb-volume" registered by `BlurbVolumeControl.mounted`. The
message of line 100 is logged only when the loop has ended without exception. -/
def BlurbVolumeControl.onChangeBlurbVolume (doc : Document) (value : Int) : HandlerResult :=
  let audioElements := querySelectorAllClass doc "blurb-source-audio".toList
  match setVolumes ((value : ℚ) / 100) audioElements doc with
  | (doc2, some e) => ⟨doc2, [], some e⟩
  | (doc2, none) => ⟨doc2, ["Set to ".toList ++ intToString value], none⟩

/-- An audio element of the page, with its id and its volume. -/
def audioElement (id : JSString) (volume : ℚ) : Element :=
  ⟨id, ["blurb-source-audio".toList], [], [], volume, 0⟩

/-! ## Lemmas on strings -/

theorem split_ne_nil (sep : Char) (s : JSString) : split sep s ≠ [] := by
  induction s with
  | nil => simp [split]
  | cons c cs ih =>
    unfold split
    split_ifs
    · simp
    · cases h : split sep cs <;> simp

theorem split_of_not_mem (sep : Char) (s : JSString) (h : sep ∉ s) : split sep s = [s] := by
  induction s with
  | nil => simp [split]
  | cons c cs ih =>
    have hc : c ≠ sep := fun e => h (by simp [e])
    have hcs : sep ∉ cs := fun m => h (List.mem_cons_of_mem _ m)
    simp [split, hc, ih hcs]

theorem split_append_sep (sep : Char) (a b : JSString) :
    split sep (a ++ sep :: b) = split sep a ++ split sep b := by
  induction a with
  | nil => simp [split]
  | cons c cs ih =>
    by_cases hc : c = sep
    · simp [split, hc, ih]
    · have hne := split_ne_nil sep cs
      cases h : split sep cs with
      | nil => exact absurd h hne
      | cons x xs =>
        have e : split sep (c :: (cs ++ sep :: b)) = (c :: x) :: (xs ++ split sep b) := by
          rw [split, if_neg hc, ih, h]; rfl
        simpa [split, hc, h] using e

theorem split_intercalate (sep : Char) (x : JSString) (xs : List JSString)
    (h : ∀ l ∈ x :: xs, sep ∉ l) :
    split sep (List.intercalate [sep] (x :: xs)) = x :: xs := by
  induction xs generalizing x with
  | nil => simpa [List.intercalate] using split_of_not_mem sep x (h x (by simp))
  | cons y ys ih =>
    have hx : sep ∉ x := h x (by simp)
    have hrest : ∀ l ∈ y :: ys, sep ∉ l := fun l hl => h l (List.mem_cons_of_mem _ hl)
    have e : List.intercalate [sep] (x :: y :: ys) = x ++ sep :: List.intercalate [sep] (y :: ys) := by
      simp [List.intercalate, List.intersperse]
    rw [e, split_append_sep, split_of_not_mem sep x hx, ih y hrest]
    rfl

theorem dropWhile_whiteSpace_append (ws rest : JSString)
    (hws : ∀ c ∈ ws, isWhiteSpace c = true) :
    (ws ++ rest).dropWhile isWhiteSpace = rest.dropWhile isWhiteSpace := by
  induction ws with
  | nil => rfl
  | cons c cs ih =>
    have hc : isWhiteSpace c = true := hws c (by simp)
    simp only [List.cons_append, List.dropWhile_cons, hc, if_true]
    exact ih (fun d hd => hws d (List.mem_cons_of_mem _ hd))

theorem prefix_rdropWhile (p : Char → Bool) (a : JSString) (x : Char) (hx : p x = false)
    (b : JSString) : (a ++ [x]) <+: ((a ++ [x]) ++ b).rdropWhile p := by
  induction b using List.reverseRecOn with
  | nil =>
    rw [List.append_nil, List.rdropWhile_concat_neg _ _ _ (by simp [hx])]
  | append_singleton b y ih =>
    rw [← List.append_assoc]
    by_cases hy : p y = true
    · rw [List.rdropWhile_concat_pos _ _ _ hy]; exact ih
    · rw [List.rdropWhile_concat_neg _ _ _ hy, List.append_assoc]
      exact List.prefix_append _ _

theorem pinnedName_eq : "pinned=".toList = "pinned".toList ++ ['='] := by decide

theorem startsWith_trim_pinned (ws v : JSString) (hws : ∀ c ∈ ws, isWhiteSpace c = true) :
    startsWith (trim (ws ++ "pinned=".toList ++ v)) "pinned=".toList = true := by
  unfold startsWith trim
  rw [List.isPrefixOf_iff_prefix, List.append_assoc, dropWhile_whiteSpace_append ws _ hws]
  have h0 : ("pinned=".toList ++ v).dropWhile isWhiteSpace = "pinned=".toList ++ v := by
    have : "pinned=".toList = 'p' :: "inned=".toList := by decide
    rw [this, List.cons_append, List.dropWhile_cons_of_neg (by decide)]
  rw [h0, pinnedName_eq]
  exact prefix_rdropWhile isWhiteSpace _ '=' (by decide) v

theorem eq_not_mem_of_whiteSpace (ws : JSString) (hws : ∀ c ∈ ws, isWhiteSpace c = true) :
    '=' ∉ ws := by
  intro h
  have := hws '=' h
  revert this
  decide

theorem split_eq_pinned (ws v : JSString) (hws : ∀ c ∈ ws, isWhiteSpace c = true)
    (hv : '=' ∉ v) :
    split '=' (ws ++ "pinned=".toList ++ v) = [ws ++ "pinned".toList, v] := by
  have e : ws ++ "pinned=".toList ++ v = (ws ++ "pinned".toList) ++ '=' :: v := by
    rw [pinnedName_eq]; simp
  have h1 : '=' ∉ ws ++ "pinned".toList := by
    intro h
    rcases List.mem_append.1 h with h | h
    · exact eq_not_mem_of_whiteSpace ws hws h
    · revert h; decide
  rw [e, split_append_sep, split_of_not_mem _ _ h1, split_of_not_mem _ _ hv]
  rfl

theorem pinnedOfCookies_of_split (cookies : JSString) (pre post : List JSString)
    (ws v : JSString)
    (hs : split ';' cookies = pre ++ (ws ++ "pinned=".toList ++ v) :: post)
    (hpre : ∀ p ∈ pre, startsWith (trim p) "pinned=".toList = false)
    (hws : ∀ c ∈ ws, isWhiteSpace c = true) (hv : '=' ∉ v) :
    pinnedOfCookies cookies = v := by
  have hfind : (split ';' cookies).find?
      (fun cookie_pairs => startsWith (trim cookie_pairs) "pinned=".toList)
      = some (ws ++ "pinned=".toList ++ v) := by
    rw [hs, List.find?_append]
    have hn : pre.find? (fun cookie_pairs => startsWith (trim cookie_pairs) "pinned=".toList)
        = none := by
      rw [List.find?_eq_none]
      intro p hp
      rw [hpre p hp]
      exact Bool.false_ne_true
    rw [hn, Option.none_or, List.find?_cons, startsWith_trim_pinned ws v hws]
  unfold pinnedOfCookies
  rw [hfind]
  simp only [split_eq_pinned ws v hws hv]
  by_cases hv0 : v = []
  · simp [hv0]
  · simp [hv0]

theorem pinnedOfCookies_of_none (cookies : JSString)
    (h : ∀ p ∈ split ';' cookies, startsWith (trim p) "pinned=".toList = false) :
    pinnedOfCookies cookies = [] := by
  have hn : (split ';' cookies).find?
      (fun cookie_pairs => startsWith (trim cookie_pairs) "pinned=".toList) = none := by
    rw [List.find?_eq_none]
    intro p hp
    rw [h p hp]
    exact Bool.false_ne_true
  unfold pinnedOfCookies
  rw [hn]

theorem split_intercalate_of_ne_nil (sep : Char) (ls : List JSString) (hne : ls ≠ [])
    (h : ∀ l ∈ ls, sep ∉ l) : split sep (List.intercalate [sep] ls) = ls := by
  cases ls with
  | nil => exact absurd rfl hne
  | cons x xs => exact split_intercalate sep x xs h

theorem semicolon_not_mem_pair (ws v : JSString) (hws : ∀ c ∈ ws, isWhiteSpace c = true)
    (hv : ';' ∉ v) : ';' ∉ ws ++ "pinned=".toList ++ v := by
  intro h
  rcases List.mem_append.1 h with h | h
  · rcases List.mem_append.1 h with h | h
    · have := hws ';' h
      revert this
      decide
    · revert h
      decide
  · exact hv h

theorem pinnedOfCookies_intercalate (pre post : List JSString) (ws v : JSString)
    (hpre : ∀ p ∈ pre, ';' ∉ p ∧ startsWith (trim p) "pinned=".toList = false)
    (hpost : ∀ p ∈ post, ';' ∉ p) (hws : ∀ c ∈ ws, isWhiteSpace c = true)
    (h1 : ';' ∉ v) (h2 : '=' ∉ v) :
    pinnedOfCookies (List.intercalate [';'] (pre ++ (ws ++ "pinned=".toList ++ v) :: post))
      = v := by
  apply pinnedOfCookies_of_split _ pre post ws v _ (fun p hp => (hpre p hp).2) hws h2
  apply split_intercalate_of_ne_nil
  · simp
  · intro l hl
    rcases List.mem_append.1 hl with hl | hl
    · exact (hpre l hl).1
    · rcases List.mem_cons.1 hl with hl | hl
      · rw [hl]; exact semicolon_not_mem_pair ws v hws h1
      · exact hpost l hl

theorem onSetPinned_eq_intercalate (v : JSString) :
    PinButton.onSetPinned v = List.intercalate [';']
      ([] ++ ([] ++ "pinned=".toList ++ v) :: ["path=/".toList, "samesite=lax".toList]) := by
  have e : ";path=/;samesite=lax".toList
      = ';' :: ("path=/".toList ++ ';' :: "samesite=lax".toList) := by decide
  unfold PinButton.onSetPinned
  rw [e]
  simp [List.intercalate, List.intersperse]

/-! ## The pinned preference (C1, C10) -/

/-- C1 (amended). For every `document.cookie` string: when the first of its
`;`-separated pairs named pinned (its trimmed text starts with `pinned=`) is
`pinned=v` after white space only, and `v` has no `=`, then `PinButton.mounted`
pushes "set-pinned" with payload `pinned: v`, whatever pairs stand before and after;
when no pair is named pinned, the payload is `pinned: ""`. -/
theorem pinButton_mounted_payload (cookies : JSString) :
    (∀ (pre post : List JSString) (ws v : JSString),
      split ';' cookies = pre ++ (ws ++ "pinned=".toList ++ v) :: post →
      (∀ p ∈ pre, startsWith (trim p) "pinned=".toList = false) →
      (∀ c ∈ ws, isWhiteSpace c = true) → '=' ∉ v →
      PinButton.mounted cookies = [⟨"set-pinned".toList, [("pinned".toList, v)]⟩]) ∧
    ((∀ p ∈ split ';' cookies, startsWith (trim p) "pinned=".toList = false) →
      PinButton.mounted cookies = [⟨"set-pinned".toList, [("pinned".toList, [])]⟩]) := by
  constructor
  · intro pre post ws v hs hpre hws hv
    unfold PinButton.mounted
    rw [pinnedOfCookies_of_split cookies pre post ws v hs hpre hws hv]
  · intro h
    unfold PinButton.mounted
    rw [pinnedOfCookies_of_none cookies h]

/-- C1, evaluated: with `a=1; pinned=abc; b=2` the payload is `abc`, with `a=1; b=2`
it is the empty string. -/
theorem pinButton_mounted_payload_witness :
    PinButton.mounted "a=1; pinned=abc; b=2".toList
        = [⟨"set-pinned".toList, [("pinned".toList, "abc".toList)]⟩] ∧
      PinButton.mounted "a=1; b=2".toList
        = [⟨"set-pinned".toList, [("pinned".toList, [])]⟩] :=
  ⟨(pinButton_mounted_payload "a=1; pinned=abc; b=2".toList).1
      ["a=1".toList] [" b=2".toList] " ".toList "abc".toList
      (by decide) (by decide) (by decide) (by decide),
    (pinButton_mounted_payload "a=1; b=2".toList).2 (by decide)⟩

/-- C1 as stated fails. The only pair of `pinned=a=b` is `pinned=v` for `v = a=b`, and
the payload is `a`; in `pinned=a; pinned=b` the second pair, trimmed, is `pinned=b`, and
the payload is `a`; the first pair of `pinned=a ;x=1`, trimmed, is `pinned=a`, and the
payload keeps the blank. -/
theorem pinButton_mounted_counterexample :
    ("pinned=a=b".toList ∈ split ';' "pinned=a=b".toList ∧
      trim "pinned=a=b".toList = "pinned=".toList ++ "a=b".toList ∧
      PinButton.mounted "pinned=a=b".toList
        = [⟨"set-pinned".toList, [("pinned".toList, "a".toList)]⟩] ∧
      PinButton.mounted "pinned=a=b".toList
        ≠ [⟨"set-pinned".toList, [("pinned".toList, "a=b".toList)]⟩]) ∧
    (" pinned=b".toList ∈ split ';' "pinned=a; pinned=b".toList ∧
      trim " pinned=b".toList = "pinned=".toList ++ "b".toList ∧
      PinButton.mounted "pinned=a; pinned=b".toList
        ≠ [⟨"set-pinned".toList, [("pinned".toList, "b".toList)]⟩]) ∧
    ("pinned=a ".toList ∈ split ';' "pinned=a ;x=1".toList ∧
      trim "pinned=a ".toList = "pinned=".toList ++ "a".toList ∧
      PinButton.mounted "pinned=a ;x=1".toList
        ≠ [⟨"set-pinned".toList, [("pinned".toList, "a".toList)]⟩]) := by
  decide

/-- C10. For every value `v` without `;` and without `=`: the cookie parser of
`PinButton.mounted`, applied to the string the "set-pinned" handler writes for `v`,
gives `v`; and so it does on every cookie string whose pairs are `pre`, then
`pinned=v` after white space only, then `post`, when no pair of `pre` is named pinned. -/
theorem pinned_round_trip (v : JSString) (h1 : ';' ∉ v) (h2 : '=' ∉ v) :
    pinnedOfCookies (PinButton.onSetPinned v) = v ∧
    ∀ (pre post : List JSString) (ws : JSString),
      (∀ p ∈ pre, ';' ∉ p ∧ startsWith (trim p) "pinned=".toList = false) →
      (∀ p ∈ post, ';' ∉ p) → (∀ c ∈ ws, isWhiteSpace c = true) →
      pinnedOfCookies
        (List.intercalate [';'] (pre ++ (ws ++ "pinned=".toList ++ v) :: post)) = v := by
  constructor
  · rw [onSetPinned_eq_intercalate]
    apply pinnedOfCookies_intercalate [] _ [] v _ _ _ h1 h2
    · intro p hp; exact absurd hp (List.not_mem_nil p)
    · decide
    · intro c hc; exact absurd hc (List.not_mem_nil c)
  · intro pre post ws hpre hpost hws
    exact pinnedOfCookies_intercalate pre post ws v hpre hpost hws h1 h2

/-- C10, evaluated: `xyz` written by the handler is read back, also between other
cookies. -/
theorem pinned_round_trip_witness :
    pinnedOfCookies "pinned=xyz;path=/;samesite=lax".toList = "xyz".toList ∧
      pinnedOfCookies "theme=dark; pinned=xyz; lang=en".toList = "xyz".toList :=
  ⟨(pinned_round_trip "xyz".toList (by decide) (by decide)).1,
    (pinned_round_trip "xyz".toList (by decide) (by decide)).2
      ["theme=dark".toList] [" lang=en".toList] " ".toList (by decide) (by decide) (by decide)⟩

/-! ## Lemmas on `extractDateTime` -/

theorem extractDateTime_of_falsy (el : Element)
    (h : parseInt el.textContent = none ∨ parseInt el.textContent = some 0) :
    extractDateTime el = (none, [notAnIntMessage el.textContent]) := by
  unfold extractDateTime
  rcases h with h | h <;> simp [h, JSNumber.toBoolean]

theorem extractDateTime_of_truthy (el : Element) (t : Int)
    (h : parseInt el.textContent = some t) (ht : t ≠ 0) :
    extractDateTime el = (some (Date.new (some (t * 1000))), []) := by
  unfold extractDateTime
  simp [h, JSNumber.toBoolean, ht, Date.toBoolean, JSNumber.mul]

theorem formatTimestamp_of_truthy (L : Locale) (el : Element) (t : Int)
    (h : parseInt el.textContent = some t) (ht : t ≠ 0) :
    formatTimestamp L el =
      ({ el with textContent :=
          (Date.new (some (t * 1000))).toLocaleDateString L ++ " @ ".toList ++
            (Date.new (some (t * 1000))).toLocaleTimeString L }, []) := by
  unfold formatTimestamp
  rw [extractDateTime_of_truthy el t h ht]

theorem hoverFormatTimestamp_of_truthy (L : Locale) (el : Element) (t : Int)
    (h : parseInt el.textContent = some t) (ht : t ≠ 0) :
    hoverFormatTimestamp L el =
      (({ el with textContent := (Date.new (some (t * 1000))).toLocaleTimeString24 L }).setAttribute
        "title".toList
        ((Date.new (some (t * 1000))).toLocaleDateString L ++ " @ ".toList ++
          (Date.new (some (t * 1000))).toLocaleTimeString L), []) := by
  unfold hoverFormatTimestamp
  rw [extractDateTime_of_truthy el t h ht]

theorem setAttr_setAttr (name value : JSString) (attrs : List (JSString × JSString)) :
    setAttr name value (setAttr name value attrs) = setAttr name value attrs := by
  induction attrs with
  | nil => simp [setAttr]
  | cons kv rest ih =>
    by_cases hk : kv.1 = name
    · simp [setAttr, hk]
    · simp [setAttr, hk, ih]

theorem find_setAttr (name value : JSString) (attrs : List (JSString × JSString)) :
    (setAttr name value attrs).find? (fun kv => kv.1 = name) = some (name, value) := by
  induction attrs with
  | nil => simp [setAttr]
  | cons kv rest ih =>
    by_cases hk : kv.1 = name
    · simp [setAttr, hk]
    · simp [setAttr, hk, ih]

theorem Date.new_of_inRange (ms : Int) (h : -Date.maxTime ≤ ms ∧ ms ≤ Date.maxTime) :
    Date.new (some ms) = ⟨some ms⟩ := by
  simp [Date.new, h]

theorem Date.new_of_outOfRange (ms : Int) (h : ms < -Date.maxTime ∨ Date.maxTime < ms) :
    Date.new (some ms) = ⟨none⟩ := by
  have : ¬ (-Date.maxTime ≤ ms ∧ ms ≤ Date.maxTime) := by
    rintro ⟨h1, h2⟩
    rcases h with h | h <;> omega
  simp [Date.new, this]

/-! ## `parseInt` reads back a decimal numeral -/

theorem digitValue_digitChar (k : Nat) (hk : k < 10) :
    digitValue (Nat.digitChar k) = some k := by
  interval_cases k <;> decide

theorem isRadixDigit_digitChar (k : Nat) (hk : k < 10) :
    isRadixDigit 10 (Nat.digitChar k) = true := by
  interval_cases k <;> decide

theorem toDigitsCore_spec (fuel : Nat) :
    ∀ (n : Nat) (ds : List Char), n < fuel →
      ∃ l : List Char, Nat.toDigitsCore 10 fuel n ds = l ++ ds ∧ l ≠ [] ∧
        (∀ c ∈ l, isRadixDigit 10 c = true) ∧
        ∀ acc : Nat, l.foldl (fun a c => a * 10 + (digitValue c).getD 0) acc
          = acc * 10 ^ l.length + n := by
  induction fuel with
  | zero => intro n ds h; exact absurd h (Nat.not_lt_zero n)
  | succ fuel ih =>
    intro n ds hn
    have hmod : n % 10 < 10 := Nat.mod_lt n (by decide)
    by_cases h0 : n / 10 = 0
    · refine ⟨[Nat.digitChar (n % 10)], ?_, by simp, ?_, ?_⟩
      · simp [Nat.toDigitsCore, h0]
      · intro c hc
        rw [List.mem_singleton.1 hc]
        exact isRadixDigit_digitChar _ hmod
      · intro acc
        have h10 : n % 10 = n := by omega
        rw [h10] at hmod ⊢
        simp [digitValue_digitChar n hmod]
    · have hlt : n / 10 < fuel := by omega
      obtain ⟨l, hl, _, hdig, hval⟩ := ih (n / 10) (Nat.digitChar (n % 10) :: ds) hlt
      refine ⟨l ++ [Nat.digitChar (n % 10)], ?_, by simp, ?_, ?_⟩
      · simp [Nat.toDigitsCore, h0, hl]
      · intro c hc
        rcases List.mem_append.1 hc with hc | hc
        · exact hdig c hc
        · rw [List.mem_singleton.1 hc]
          exact isRadixDigit_digitChar _ hmod
      · intro acc
        rw [List.foldl_append, hval acc]
        simp only [List.foldl_cons, List.foldl_nil, digitValue_digitChar _ hmod,
          Option.getD_some, List.length_append, List.length_singleton]
        rw [pow_succ]
        have := Nat.div_add_mod n 10
        nlinarith [this]

theorem natToString_spec (n : Nat) :
    natToString n ≠ [] ∧ (∀ c ∈ natToString n, isRadixDigit 10 c = true) ∧
      digitsValue 10 (natToString n) = n := by
  obtain ⟨l, hl, hne, hdig, hval⟩ := toDigitsCore_spec (n + 1) n [] (Nat.lt_succ_self n)
  have e : natToString n = l := by
    unfold natToString Nat.toDigits
    rw [hl, List.append_nil]
  rw [e]
  refine ⟨hne, hdig, ?_⟩
  unfold digitsValue
  rw [hval 0]
  simp

theorem takeWhile_eq_self_of_all (p : Char → Bool) (l : List Char)
    (h : ∀ c ∈ l, p c = true) : l.takeWhile p = l := by
  induction l with
  | nil => rfl
  | cons c cs ih =>
    rw [List.takeWhile_cons, h c (by simp), if_pos rfl,
      ih (fun d hd => h d (List.mem_cons_of_mem _ hd))]

theorem not_special_of_digit (c : Char) (hc : isRadixDigit 10 c = true) :
    isWhiteSpace c = false ∧ c ≠ '-' ∧ c ≠ '+' ∧ c ≠ 'x' ∧ c ≠ 'X' := by
  unfold isRadixDigit digitValue at hc
  unfold isWhiteSpace
  have e1 : (c.toNat ≠ '-'.toNat ∧ c.toNat ≠ '+'.toNat ∧ c.toNat ≠ 'x'.toNat ∧
      c.toNat ≠ 'X'.toNat) → (c ≠ '-' ∧ c ≠ '+' ∧ c ≠ 'x' ∧ c ≠ 'X') := by
    rintro ⟨a, b, d, e⟩
    refine ⟨?_, ?_, ?_, ?_⟩ <;> intro h <;> subst h <;> simp at *
  refine ⟨?_, e1 ?_⟩
  all_goals
    generalize c.toNat = k at *
    simp only [show '0'.toNat = 48 by decide, show '9'.toNat = 57 by decide,
      show 'a'.toNat = 97 by decide, show 'z'.toNat = 122 by decide,
      show 'A'.toNat = 65 by decide, show 'Z'.toNat = 90 by decide,
      show '-'.toNat = 45 by decide, show '+'.toNat = 43 by decide,
      show 'x'.toNat = 120 by decide, show 'X'.toNat = 88 by decide] at *
    split_ifs at hc with h1 h2 h3
    · first
        | omega
        | (simp only [Bool.or_eq_false_iff, Bool.and_eq_false_imp, decide_eq_false_iff_not,
            decide_eq_true_eq]
           omega)
    all_goals simp at hc

theorem parseIntSign_of_digit (c : Char) (cs : JSString) (hc : isRadixDigit 10 c = true) :
    parseIntSign (c :: cs) = (1, c :: cs) := by
  obtain ⟨_, hm, hp, _, _⟩ := not_special_of_digit c hc
  unfold parseIntSign
  split
  · next heq => simp only [List.cons.injEq] at heq; exact absurd heq.1 hm
  · next heq => simp only [List.cons.injEq] at heq; exact absurd heq.1 hp
  · rfl

theorem parseIntRadix_of_digits (l : JSString) (hd : ∀ c ∈ l, isRadixDigit 10 c = true) :
    parseIntRadix l = (10, l) := by
  unfold parseIntRadix
  split
  · next r =>
    have := (not_special_of_digit 'x' (hd 'x' (by simp))).2.2.2.1
    exact absurd rfl this
  · next r =>
    have := (not_special_of_digit 'X' (hd 'X' (by simp))).2.2.2.2
    exact absurd rfl this
  · rfl

theorem parseInt_digits (l : JSString) (hne : l ≠ [])
    (hd : ∀ c ∈ l, isRadixDigit 10 c = true) :
    parseInt l = some ((digitsValue 10 l : Nat) : Int) ∧
      parseInt ('-' :: l) = some (-((digitsValue 10 l : Nat) : Int)) := by
  have htake : l.takeWhile (isRadixDigit 10) = l := takeWhile_eq_self_of_all _ _ hd
  have hradix := parseIntRadix_of_digits l hd
  cases l with
  | nil => exact absurd rfl hne
  | cons c cs =>
    have hc := hd c (by simp)
    have hws := (not_special_of_digit c hc).1
    have hdrop : (c :: cs).dropWhile isWhiteSpace = c :: cs := by
      rw [List.dropWhile_cons_of_neg (by simp [hws])]
    have hdrop2 : ('-' :: c :: cs).dropWhile isWhiteSpace = '-' :: c :: cs := by
      rw [List.dropWhile_cons_of_neg (by decide)]
    constructor
    · unfold parseInt
      simp only [hdrop, parseIntSign_of_digit c cs hc, hradix, htake]
      simp
    · unfold parseInt
      simp only [hdrop2, parseIntSign, hradix, htake]
      simp

theorem parseInt_intToString (t : Int) : parseInt (intToString t) = some t := by
  cases t with
  | ofNat n =>
    obtain ⟨hne, hd, hv⟩ := natToString_spec n
    have := (parseInt_digits (natToString n) hne hd).1
    rw [hv] at this
    exact this
  | negSucc n =>
    obtain ⟨hne, hd, hv⟩ := natToString_spec (n + 1)
    have := (parseInt_digits (natToString (n + 1)) hne hd).2
    rw [hv] at this
    simpa [intToString, Int.negSucc_eq] using this

theorem parseInt_of_whiteSpace (ws : JSString) (hws : ∀ c ∈ ws, isWhiteSpace c = true) :
    parseInt ws = none := by
  have hdrop : ws.dropWhile isWhiteSpace = [] := by
    have := dropWhile_whiteSpace_append ws [] hws
    rwa [List.append_nil] at this
  unfold parseInt
  rw [hdrop]
  rfl

theorem parseInt_of_no_digit (ws : JSString) (c : Char) (cs : JSString)
    (hws : ∀ d ∈ ws, isWhiteSpace d = true) (hc : isWhiteSpace c = false)
    (hm : c ≠ '-') (hp : c ≠ '+') (hd : isRadixDigit 10 c = false) :
    parseInt (ws ++ c :: cs) = none := by
  have hdrop : (ws ++ c :: cs).dropWhile isWhiteSpace = c :: cs := by
    rw [dropWhile_whiteSpace_append ws _ hws, List.dropWhile_cons_of_neg (by simp [hc])]
  have hsign : parseIntSign (c :: cs) = (1, c :: cs) := by
    unfold parseIntSign
    split
    · next heq => simp only [List.cons.injEq] at heq; exact absurd heq.1 hm
    · next heq => simp only [List.cons.injEq] at heq; exact absurd heq.1 hp
    · rfl
  have h0 : c ≠ '0' := by
    intro h
    rw [h] at hd
    revert hd
    decide
  have hradix : parseIntRadix (c :: cs) = (10, c :: cs) := by
    unfold parseIntRadix
    split
    · next heq => simp only [List.cons.injEq] at heq; exact absurd heq.1 h0
    · next heq => simp only [List.cons.injEq] at heq; exact absurd heq.1 h0
    · rfl
  unfold parseInt
  simp only [hdrop, hsign, hradix]
  rw [List.takeWhile_cons_of_neg (by simp [hd])]
  rfl

/-! ## Rejected text content (C2, C3) -/

/-- C2 (amended). For every element whose text content `parseInt` reads as `NaN` or as
zero (white space only, `parseInt_of_whiteSpace`; no digit after the leading white space,
`parseInt_of_no_digit`; digits worth zero), `formatTimestamp` and `hoverFormatTimestamp`
leave the element as it is, text content and title attribute included, and log the
diagnostic of line 29. -/
theorem formatters_reject_falsy (L : Locale) (el : Element)
    (h : parseInt el.textContent = none ∨ parseInt el.textContent = some 0) :
    formatTimestamp L el = (el, [notAnIntMessage el.textContent]) ∧
      hoverFormatTimestamp L el = (el, [notAnIntMessage el.textContent]) := by
  constructor
  · unfold formatTimestamp
    rw [extractDateTime_of_falsy el h]
  · unfold hoverFormatTimestamp
    rw [extractDateTime_of_falsy el h]

/-- C2, evaluated on the texts `abc`, the empty text and `0`. -/
theorem formatters_reject_falsy_witness :
    (formatTimestamp enUS (textElement "abc".toList)
        = (textElement "abc".toList, [notAnIntMessage "abc".toList]) ∧
      hoverFormatTimestamp enUS (textElement "abc".toList)
        = (textElement "abc".toList, [notAnIntMessage "abc".toList])) ∧
    (formatTimestamp enUS (textElement [])
        = (textElement [], [notAnIntMessage []]) ∧
      hoverFormatTimestamp enUS (textElement [])
        = (textElement [], [notAnIntMessage []])) ∧
    (formatTimestamp enUS (textElement "0".toList)
        = (textElement "0".toList, [notAnIntMessage "0".toList]) ∧
      hoverFormatTimestamp enUS (textElement "0".toList)
        = (textElement "0".toList, [notAnIntMessage "0".toList])) :=
  ⟨formatters_reject_falsy enUS (textElement "abc".toList) (Or.inl (by decide)),
    formatters_reject_falsy enUS (textElement []) (Or.inl (by decide)),
    formatters_reject_falsy enUS (textElement "0".toList) (Or.inr (by decide))⟩

/-- C2 as stated fails. The text `12abc` contains characters that are no digits, yet
`parseInt` reads 12 from it: both formatters rewrite the text content, the hover
formatter sets a title, and nothing is logged. -/
theorem formatters_reject_counterexample :
    parseInt "12abc".toList = some 12 ∧
    (formatTimestamp enUS (textElement "12abc".toList)).1.textContent
      = "1/1/1970 @ 12:00:12 AM".toList ∧
    (formatTimestamp enUS (textElement "12abc".toList)).2 = [] ∧
    (hoverFormatTimestamp enUS (textElement "12abc".toList)).1.textContent
      = "00:00:12".toList ∧
    (hoverFormatTimestamp enUS (textElement "12abc".toList)).1.getAttribute "title".toList
      = some "1/1/1970 @ 12:00:12 AM".toList ∧
    (textElement "12abc".toList).getAttribute "title".toList = none ∧
    (hoverFormatTimestamp enUS (textElement "12abc".toList)).2 = [] := by
  decide

/-- C3, what the code does. For every element whose text content `parseInt` reads as a
nonzero integer `t` with `t * 1000` outside the range of a `Date`: `extractDateTime`
returns the invalid date and logs nothing, `formatTimestamp` writes
`Invalid Date @ Invalid Date` as text content, and `hoverFormatTimestamp` writes
`Invalid Date` as text content and `Invalid Date @ Invalid Date` as title. -/
theorem extractDateTime_invalid_date (L : Locale) (el : Element) (t : Int)
    (h : parseInt el.textContent = some t) (ht : t ≠ 0)
    (hr : t * 1000 < -Date.maxTime ∨ Date.maxTime < t * 1000) :
    extractDateTime el = (some ⟨none⟩, []) ∧
    formatTimestamp L el
      = ({ el with textContent := "Invalid Date @ Invalid Date".toList }, []) ∧
    hoverFormatTimestamp L el
      = (({ el with textContent := "Invalid Date".toList }).setAttribute "title".toList
          "Invalid Date @ Invalid Date".toList, []) := by
  refine ⟨?_, ?_, ?_⟩
  · rw [extractDateTime_of_truthy el t h ht, Date.new_of_outOfRange _ hr]
  · rw [formatTimestamp_of_truthy L el t h ht, Date.new_of_outOfRange _ hr]
    rfl
  · rw [hoverFormatTimestamp_of_truthy L el t h ht, Date.new_of_outOfRange _ hr]
    rfl

/-- C3, evaluated on the text `9999999999999`: the element is rewritten and no
diagnostic is logged. -/
theorem extractDateTime_invalid_date_witness :
    extractDateTime (textElement "9999999999999".toList) = (some ⟨none⟩, []) ∧
    formatTimestamp enUS (textElement "9999999999999".toList)
      = ({ textElement "9999999999999".toList with
            textContent := "Invalid Date @ Invalid Date".toList }, []) ∧
    hoverFormatTimestamp enUS (textElement "9999999999999".toList)
      = (({ textElement "9999999999999".toList with
            textContent := "Invalid Date".toList }).setAttribute "title".toList
          "Invalid Date @ Invalid Date".toList, []) :=
  extractDateTime_invalid_date enUS (textElement "9999999999999".toList) 9999999999999
    (by decide) (by decide) (by decide)

/-! ## Accepted text content (C4, C5, C6) -/

/-- C5 (amended). For every element whose text content `parseInt` reads as a nonzero
integer `t` (the decimal numeral of `t` is such a text, `parseInt_intToString`) with
`t * 1000` in the range of a `Date`: `formatTimestamp` replaces the text content with
the localized date of the instant `t * 1000`, then ` @ `, then the localized time of
that instant, changes nothing else on the element, and logs nothing. -/
theorem formatTimestamp_text (L : Locale) (el : Element) (t : Int)
    (h : parseInt el.textContent = some t) (ht : t ≠ 0)
    (hr : -Date.maxTime ≤ t * 1000 ∧ t * 1000 ≤ Date.maxTime) :
    formatTimestamp L el =
      ({ el with textContent :=
          L.dateString (t * 1000) ++ " @ ".toList ++ L.timeString (t * 1000) }, []) := by
  rw [formatTimestamp_of_truthy L el t h ht, Date.new_of_inRange _ hr]
  rfl

/-- C5, evaluated on the text `1700000000` in the `en-US` locale. -/
theorem formatTimestamp_text_witness :
    formatTimestamp enUS (textElement "1700000000".toList)
      = ({ textElement "1700000000".toList with
            textContent := "11/14/2023 @ 10:13:20 PM".toList }, []) :=
  formatTimestamp_text enUS (textElement "1700000000".toList) 1700000000
    (by decide) (by decide) (by decide)

/-- C5 as stated fails. The text `9999999999999` is a nonzero integer; in the `en-US`
locale the date and time of the instant `9999999999999000` read
`5/20/318857 @ 5:46:39 PM`, and `formatTimestamp` writes `Invalid Date @ Invalid Date`,
that instant lying outside the range of a `Date`. -/
theorem formatTimestamp_text_counterexample :
    parseInt "9999999999999".toList = some 9999999999999 ∧
    enUS.dateString (9999999999999 * 1000) ++ " @ ".toList
        ++ enUS.timeString (9999999999999 * 1000)
      = "5/20/318857 @ 5:46:39 PM".toList ∧
    (formatTimestamp enUS (textElement "9999999999999".toList)).1.textContent
      = "Invalid Date @ Invalid Date".toList ∧
    (formatTimestamp enUS (textElement "9999999999999".toList)).1.textContent
      ≠ enUS.dateString (9999999999999 * 1000) ++ " @ ".toList
          ++ enUS.timeString (9999999999999 * 1000) := by
  decide

/-- C6 (amended). For every element whose text content `parseInt` reads as a nonzero
integer `t`: `hoverFormatTimestamp` sets the title attribute to exactly the text content
that `formatTimestamp` writes for the same element; and with `t * 1000` in the range of a
`Date` it sets the text content to the localized twenty-four hour time of the instant
`t * 1000`. -/
theorem hoverFormatTimestamp_text_title (L : Locale) (el : Element) (t : Int)
    (h : parseInt el.textContent = some t) (ht : t ≠ 0) :
    (hoverFormatTimestamp L el).1.getAttribute "title".toList
      = some (formatTimestamp L el).1.textContent ∧
    ((-Date.maxTime ≤ t * 1000 ∧ t * 1000 ≤ Date.maxTime) →
      (hoverFormatTimestamp L el).1.textContent = L.timeString24 (t * 1000)) := by
  rw [hoverFormatTimestamp_of_truthy L el t h ht, formatTimestamp_of_truthy L el t h ht]
  refine ⟨?_, fun hr => ?_⟩
  · simp only [Element.getAttribute, Element.setAttribute, find_setAttr, Option.map_some']
  · simp only [Element.setAttribute, Date.new_of_inRange _ hr]
    rfl

/-- C6, evaluated on the text `1700000000` in the `en-US` locale. -/
theorem hoverFormatTimestamp_text_title_witness :
    (hoverFormatTimestamp enUS (textElement "1700000000".toList)).1.textContent
      = "22:13:20".toList ∧
    (hoverFormatTimestamp enUS (textElement "1700000000".toList)).1.getAttribute
        "title".toList = some "11/14/2023 @ 10:13:20 PM".toList :=
  ⟨(hoverFormatTimestamp_text_title enUS (textElement "1700000000".toList) 1700000000
      (by decide) (by decide)).2 (by decide),
    (hoverFormatTimestamp_text_title enUS (textElement "1700000000".toList) 1700000000
      (by decide) (by decide)).1⟩

/-- C6 as stated fails. The text `9999999999999` is a nonzero integer; in the `en-US`
locale the twenty-four hour time of the instant `9999999999999000` reads `17:46:39`, and
`hoverFormatTimestamp` writes `Invalid Date`, that instant lying outside the range of a
`Date`. -/
theorem hoverFormatTimestamp_text_counterexample :
    parseInt "9999999999999".toList = some 9999999999999 ∧
    enUS.timeString24 (9999999999999 * 1000) = "17:46:39".toList ∧
    (hoverFormatTimestamp enUS (textElement "9999999999999".toList)).1.textContent
      = "Invalid Date".toList ∧
    (hoverFormatTimestamp enUS (textElement "9999999999999".toList)).1.textContent
      ≠ enUS.timeString24 (9999999999999 * 1000) := by
  decide

theorem setAttr_overwrite (name v v2 : JSString) (attrs : List (JSString × JSString)) :
    setAttr name v2 (setAttr name v attrs) = setAttr name v2 attrs := by
  induction attrs with
  | nil => simp [setAttr]
  | cons kv rest ih =>
    by_cases hk : kv.1 = name
    · simp [setAttr, hk]
    · simp [setAttr, hk, ih]

theorem setAttr_inj (name v v2 : JSString) (attrs : List (JSString × JSString))
    (h : setAttr name v2 attrs = setAttr name v attrs) : v2 = v := by
  have h2 := find_setAttr name v2 attrs
  rw [h, find_setAttr] at h2
  exact ((Prod.mk.injEq _ _ _ _).mp (Option.some.inj h2)).2.symm

/-- C4 (amended). For every element whose text content `parseInt` reads as a nonzero
integer `t`, a second application of `formatTimestamp`, and of `hoverFormatTimestamp`,
to the element reads the text the first one wrote. When `parseInt` reads that text as
`NaN` or as zero, the second application leaves the element as the first left it, text
content and title attribute included. When `parseInt` reads a nonzero integer `t2`
there, the second application formats `t2`, and the text content and title attribute
are those of the first application exactly when `t2` formats to the same strings as
`t`. -/
theorem formatters_second_application (L : Locale) (el : Element) (t : Int)
    (h : parseInt el.textContent = some t) (ht : t ≠ 0) :
    ((parseInt (formatTimestamp L el).1.textContent = none ∨
        parseInt (formatTimestamp L el).1.textContent = some 0) →
      (formatTimestamp L (formatTimestamp L el).1).1 = (formatTimestamp L el).1) ∧
    (∀ t2 : Int, parseInt (formatTimestamp L el).1.textContent = some t2 → t2 ≠ 0 →
      (((formatTimestamp L (formatTimestamp L el).1).1.textContent
            = (formatTimestamp L el).1.textContent ∧
          (formatTimestamp L (formatTimestamp L el).1).1.getAttribute "title".toList
            = (formatTimestamp L el).1.getAttribute "title".toList) ↔
        (Date.new (some (t2 * 1000))).toLocaleDateString L ++ " @ ".toList ++
            (Date.new (some (t2 * 1000))).toLocaleTimeString L
          = (Date.new (some (t * 1000))).toLocaleDateString L ++ " @ ".toList ++
            (Date.new (some (t * 1000))).toLocaleTimeString L)) ∧
    ((parseInt (hoverFormatTimestamp L el).1.textContent = none ∨
        parseInt (hoverFormatTimestamp L el).1.textContent = some 0) →
      (hoverFormatTimestamp L (hoverFormatTimestamp L el).1).1
        = (hoverFormatTimestamp L el).1) ∧
    (∀ t2 : Int, parseInt (hoverFormatTimestamp L el).1.textContent = some t2 → t2 ≠ 0 →
      (((hoverFormatTimestamp L (hoverFormatTimestamp L el).1).1.textContent
            = (hoverFormatTimestamp L el).1.textContent ∧
          (hoverFormatTimestamp L (hoverFormatTimestamp L el).1).1.getAttribute "title".toList
            = (hoverFormatTimestamp L el).1.getAttribute "title".toList) ↔
        ((Date.new (some (t2 * 1000))).toLocaleTimeString24 L
            = (Date.new (some (t * 1000))).toLocaleTimeString24 L ∧
          (Date.new (some (t2 * 1000))).toLocaleDateString L ++ " @ ".toList ++
              (Date.new (some (t2 * 1000))).toLocaleTimeString L
            = (Date.new (some (t * 1000))).toLocaleDateString L ++ " @ ".toList ++
              (Date.new (some (t * 1000))).toLocaleTimeString L))) := by
  have hf := formatTimestamp_of_truthy L el t h ht
  have hh := hoverFormatTimestamp_of_truthy L el t h ht
  refine ⟨?_, ?_, ?_, ?_⟩
  · intro hfalsy
    generalize formatTimestamp L el = r at hfalsy ⊢
    unfold formatTimestamp
    rw [extractDateTime_of_falsy r.1 hfalsy]
  · intro t2 h2 ht2
    rw [hf] at h2 ⊢
    rw [formatTimestamp_of_truthy L _ t2 h2 ht2]
    constructor
    · intro hsame
      exact hsame.1
    · intro hsame
      exact ⟨hsame, rfl⟩
  · intro hfalsy
    generalize hoverFormatTimestamp L el = r at hfalsy ⊢
    unfold hoverFormatTimestamp
    rw [extractDateTime_of_falsy r.1 hfalsy]
  · intro t2 h2 ht2
    rw [hh] at h2 ⊢
    rw [hoverFormatTimestamp_of_truthy L _ t2 h2 ht2]
    simp only [Element.getAttribute, Element.setAttribute, find_setAttr, Option.map_some',
      setAttr_overwrite]
    constructor
    · rintro ⟨h1, h3⟩
      exact ⟨h1, Option.some.inj h3⟩
    · rintro ⟨h1, h3⟩
      exact ⟨h1, congrArg some h3⟩

/-- C4, evaluated in the `en-US` locale. The hover text of `1700007200` is `00:13:20`,
which `parseInt` reads as zero: the second application changes nothing. The text
written for `1700000000` is read as 11, which formats otherwise: the second application
changes the text content. -/
theorem formatters_second_application_witness :
    (hoverFormatTimestamp enUS (textElement "1700007200".toList)).1.textContent
      = "00:13:20".toList ∧
    (hoverFormatTimestamp enUS (hoverFormatTimestamp enUS (textElement "1700007200".toList)).1).1
      = (hoverFormatTimestamp enUS (textElement "1700007200".toList)).1 ∧
    ¬ ((formatTimestamp enUS
          (formatTimestamp enUS (textElement "1700000000".toList)).1).1.textContent
          = (formatTimestamp enUS (textElement "1700000000".toList)).1.textContent ∧
        (formatTimestamp enUS
          (formatTimestamp enUS (textElement "1700000000".toList)).1).1.getAttribute
            "title".toList
          = (formatTimestamp enUS (textElement "1700000000".toList)).1.getAttribute
            "title".toList) :=
  ⟨by decide,
    (formatters_second_application enUS (textElement "1700007200".toList) 1700007200
      (by decide) (by decide)).2.2.1 (Or.inr (by decide)),
    fun hsame =>
      absurd
        (((formatters_second_application enUS (textElement "1700000000".toList) 1700000000
          (by decide) (by decide)).2.1 11 (by decide) (by decide)).1 hsame)
        (by decide)⟩

/-- C4 as stated fails. In the `en-US` locale the text `1700000000` is formatted as
`11/14/2023 @ 10:13:20 PM`; applied to that text the formatter reads 11 and writes
`1/1/1970 @ 12:00:11 AM`. The hover formatter writes `22:13:20`, then reads 22 and
writes `00:00:22` with a title of 1970. -/
theorem formatters_idempotent_counterexample :
    (formatTimestamp enUS (textElement "1700000000".toList)).1.textContent
      = "11/14/2023 @ 10:13:20 PM".toList ∧
    (formatTimestamp enUS (formatTimestamp enUS (textElement "1700000000".toList)).1).1.textContent
      = "1/1/1970 @ 12:00:11 AM".toList ∧
    (hoverFormatTimestamp enUS (textElement "1700000000".toList)).1.textContent
      = "22:13:20".toList ∧
    (hoverFormatTimestamp enUS
        (hoverFormatTimestamp enUS (textElement "1700000000".toList)).1).1.textContent
      = "00:00:22".toList ∧
    (hoverFormatTimestamp enUS (textElement "1700000000".toList)).1.getAttribute "title".toList
      = some "11/14/2023 @ 10:13:20 PM".toList ∧
    (hoverFormatTimestamp enUS
        (hoverFormatTimestamp enUS (textElement "1700000000".toList)).1).1.getAttribute
        "title".toList
      = some "1/1/1970 @ 12:00:22 AM".toList := by
  decide

/-! ## Lemmas on the audio hooks -/

theorem replace_dot_eq_erase (track : JSString) :
    replace track ".".toList "".toList = track.erase '.' := by
  induction track with
  | nil => decide
  | cons c cs ih =>
    by_cases hc : c = '.'
    · subst hc
      simp [replace, show ".".toList = ['.'] by decide, show "".toList = [] by decide]
    · have hp : (".".toList).isPrefixOf (c :: cs) = false := by
        simp [show ".".toList = ['.'] by decide, List.isPrefixOf, Ne.symm hc]
      rw [replace, hp, List.erase_cons_tail (by simpa using hc), ih]
      simp

theorem length_playAt (i : Nat) (doc : Document) : (playAt i doc).length = doc.length := by
  induction doc generalizing i with
  | nil => cases i <;> rfl
  | cons el rest ih =>
    cases i with
    | zero => rfl
    | succ i => simp [playAt, ih]

theorem get?_playAt (i j : Nat) (doc : Document) :
    (playAt i doc).get? j =
      (doc.get? j).map (fun el => if j = i then { el with playCalls := el.playCalls + 1 } else el) := by
  induction doc generalizing i j with
  | nil => cases i <;> simp [playAt]
  | cons el rest ih =>
    cases i with
    | zero =>
      cases j with
      | zero => simp [playAt]
      | succ j => simp [playAt]
    | succ i =>
      cases j with
      | zero => simp [playAt]
      | succ j => simpa [playAt] using ih i j

theorem setVolumeAt_of_inRange (v : ℚ) (hv : 0 ≤ v ∧ v ≤ 1) (i : Nat) (doc : Document) :
    ∃ doc2, setVolumeAt v i doc = .ok doc2 ∧ doc2.length = doc.length ∧
      ∀ j, doc2.get? j =
        (doc.get? j).map (fun el => if j = i then { el with volume := v } else el) := by
  induction doc generalizing i with
  | nil => exact ⟨[], by cases i <;> rfl, rfl, fun j => by simp⟩
  | cons el rest ih =>
    cases i with
    | zero =>
      refine ⟨{ el with volume := v } :: rest, ?_, rfl, ?_⟩
      · simp [setVolumeAt, Element.setVolume, hv]
      · intro j
        cases j with
        | zero => simp
        | succ j => simp
    | succ i =>
      obtain ⟨rest2, h1, h2, h3⟩ := ih i
      refine ⟨el :: rest2, ?_, by simp [h2], ?_⟩
      · simp [setVolumeAt, h1]
      · intro j
        cases j with
        | zero => simp
        | succ j => simpa using h3 j

theorem setVolumes_of_inRange (v : ℚ) (hv : 0 ≤ v ∧ v ≤ 1) (targets : List Nat)
    (doc : Document) :
    ∃ doc2, setVolumes v targets doc = (doc2, none) ∧ doc2.length = doc.length ∧
      ∀ j, doc2.get? j =
        (doc.get? j).map (fun el => if j ∈ targets then { el with volume := v } else el) := by
  induction targets generalizing doc with
  | nil => exact ⟨doc, rfl, rfl, fun j => by simp⟩
  | cons i rest ih =>
    obtain ⟨d1, h1, h2, h3⟩ := setVolumeAt_of_inRange v hv i doc
    obtain ⟨d2, k1, k2, k3⟩ := ih d1
    refine ⟨d2, ?_, by rw [k2, h2], ?_⟩
    · simp [setVolumes, h1, k1]
    · intro j
      rw [k3 j, h3 j]
      cases hj : doc.get? j with
      | none => rfl
      | some el =>
        simp only [Option.map_some', List.mem_cons]
        by_cases e1 : j = i <;> by_cases e2 : j ∈ rest <;> simp [e1, e2]

theorem mem_querySelectorAllClass (doc : Document) (cls : JSString) (j : Nat) (el : Element)
    (hj : doc.get? j = some el) :
    j ∈ querySelectorAllClass doc cls ↔ el.classList.contains cls = true := by
  have hlt : j < doc.length := by
    rcases Nat.lt_or_ge j doc.length with h | h
    · exact h
    · rw [List.get?_eq_none.2 h] at hj; exact absurd hj (by simp)
  unfold querySelectorAllClass
  rw [List.mem_filter, List.mem_range, hj]
  exact ⟨fun h => h.2, fun h => ⟨hlt, h⟩⟩

theorem not_mem_erase_of_count_le_one (track : JSString) (h : track.count '.' ≤ 1) :
    '.' ∉ track.erase '.' := by
  intro hmem
  have h1 : 0 < (track.erase '.').count '.' := List.count_pos_iff.2 hmem
  rw [List.count_erase_self] at h1
  omega

/-! ## Playing a blurb (C7, C8) -/

/-- C7. For every track of a "play-blurb" event, every page and every selector engine:
the selector looked up is `#blurb-source-` followed by the track without its first `.`
(`foo.mp3` gives `#blurb-source-foomp3`); when the engine finds an element, the handler
ends without error and `play` has been called exactly once on that element and on no
other; when the engine finds none, the handler ends without error and the page is as
before; the handler raises an error only when the engine itself does. -/
theorem playBlurb_handler (querySelector : QuerySelector) (doc : Document)
    (track : JSString) :
    blurbSelector track = "#blurb-source-".toList ++ track.erase '.' ∧
    blurbSelector "foo.mp3".toList = "#blurb-source-foomp3".toList ∧
    (∀ i : Nat, querySelector doc (blurbSelector track) = .ok (some i) →
      ∃ doc2, BlurbPlayer.onPlayBlurb querySelector doc track = .ok doc2 ∧
        doc2.length = doc.length ∧
        ∀ j, doc2.get? j = (doc.get? j).map (fun el =>
          if j = i then { el with playCalls := el.playCalls + 1 } else el)) ∧
    (querySelector doc (blurbSelector track) = .ok none →
      BlurbPlayer.onPlayBlurb querySelector doc track = .ok doc) ∧
    (∀ e, BlurbPlayer.onPlayBlurb querySelector doc track = .error e →
      querySelector doc (blurbSelector track) = .error e) := by
  refine ⟨?_, by decide, ?_, ?_, ?_⟩
  · unfold blurbSelector
    rw [replace_dot_eq_erase]
  · intro i hi
    refine ⟨playAt i doc, ?_, length_playAt i doc, fun j => get?_playAt i j doc⟩
    unfold BlurbPlayer.onPlayBlurb
    rw [hi]
  · intro hnone
    unfold BlurbPlayer.onPlayBlurb
    rw [hnone]
  · intro e he
    unfold BlurbPlayer.onPlayBlurb at he
    cases hq : querySelector doc (blurbSelector track) with
    | error e2 =>
      rw [hq] at he
      have hee : e2 = e := by simpa using he
      rw [hee]
    | ok r =>
      rw [hq] at he
      cases r <;> cases he

/-- C7, evaluated with the ID selector engine: on a page that holds the element
`blurb-source-foomp3` the track `foo.mp3` records one call of `play` on it, and on
the empty page nothing happens. -/
theorem playBlurb_handler_witness :
    (∃ doc2, BlurbPlayer.onPlayBlurb idSelectorEngine
        [audioElement "other".toList 1, audioElement "blurb-source-foomp3".toList 1]
        "foo.mp3".toList = .ok doc2 ∧
      doc2.length = 2 ∧
      ∀ j, doc2.get? j =
        ([audioElement "other".toList 1, audioElement "blurb-source-foomp3".toList 1].get? j).map
          (fun el => if j = 1 then { el with playCalls := el.playCalls + 1 } else el)) ∧
    BlurbPlayer.onPlayBlurb idSelectorEngine [] "foo.mp3".toList = .ok [] :=
  ⟨(playBlurb_handler idSelectorEngine
      [audioElement "other".toList 1, audioElement "blurb-source-foomp3".toList 1]
      "foo.mp3".toList).2.2.1 1 (by rfl),
    (playBlurb_handler idSelectorEngine [] "foo.mp3".toList).2.2.2.1 (by rfl)⟩

/-- C8, what the code does on the track `a.b.mp3`: only the first `.` is removed, the
selector is `#blurb-source-ab.mp3`, and a `.` stands after the prefix. -/
theorem blurbSelector_keeps_dot :
    blurbSelector "a.b.mp3".toList = "#blurb-source-ab.mp3".toList ∧
    (blurbSelector "a.b.mp3".toList).take 14 = "#blurb-source-".toList ∧
    '.' ∈ (blurbSelector "a.b.mp3".toList).drop 14 := by
  decide

/-- A track with at most one `.` gives a selector without `.` after the prefix. -/
theorem blurbSelector_dot_free (track : JSString) (h : track.count '.' ≤ 1) :
    blurbSelector track = "#blurb-source-".toList ++ track.erase '.' ∧
      '.' ∉ track.erase '.' := by
  refine ⟨?_, not_mem_erase_of_count_le_one track h⟩
  unfold blurbSelector
  rw [replace_dot_eq_erase]

/-! ## Changing the volume (C9) -/

theorem setVolumeAt_of_outOfRange (v : ℚ) (hv : ¬ (0 ≤ v ∧ v ≤ 1)) (i : Nat) (doc : Document)
    (hi : i < doc.length) : setVolumeAt v i doc = .error ⟨"IndexSizeError".toList⟩ := by
  induction doc generalizing i with
  | nil => exact absurd hi (Nat.not_lt_zero i)
  | cons el rest ih =>
    cases i with
    | zero => simp [setVolumeAt, Element.setVolume, hv]
    | succ i =>
      have := ih i (Nat.lt_of_succ_lt_succ hi)
      simp [setVolumeAt, this]

/-- For a value below 0 or above 100 and a page with an element of class
`blurb-source-audio`: the handler ends with `IndexSizeError` on the first such element,
the page is as before and nothing is logged. -/
theorem changeBlurbVolume_outOfRange (doc : Document) (value : Int)
    (hv : value < 0 ∨ 100 < value)
    (hne : querySelectorAllClass doc "blurb-source-audio".toList ≠ []) :
    BlurbVolumeControl.onChangeBlurbVolume doc value
      = ⟨doc, [], some ⟨"IndexSizeError".toList⟩⟩ := by
  have hq : ¬ ((0 : ℚ) ≤ (value : ℚ) / 100 ∧ (value : ℚ) / 100 ≤ 1) := by
    rintro ⟨h1, h2⟩
    rw [div_le_one (by norm_num)] at h2
    rw [le_div_iff₀ (by norm_num)] at h1
    have h1z : (0 : Int) ≤ value := by exact_mod_cast (by simpa using h1 : (0 : ℚ) ≤ (value : ℚ))
    have h2z : value ≤ 100 := by exact_mod_cast h2
    omega
  cases htargets : querySelectorAllClass doc "blurb-source-audio".toList with
  | nil => exact absurd htargets hne
  | cons i rest =>
    have hmem : i ∈ querySelectorAllClass doc "blurb-source-audio".toList := by
      rw [htargets]; exact List.mem_cons_self i rest
    have hlt : i < doc.length := by
      unfold querySelectorAllClass at hmem
      exact List.mem_range.1 (List.mem_filter.1 hmem).1
    unfold BlurbVolumeControl.onChangeBlurbVolume
    rw [htargets]
    simp only [setVolumes, setVolumeAt_of_outOfRange _ hq i doc hlt]

/-- C9 (amended). For every integer value from 0 to 100 of a "change-blurb-volume"
event and every page: the handler ends without exception, keeps the elements of the
page in place, sets the volume of each element of class `blurb-source-audio` to exactly
`value / 100` (42 gives 0.42) and leaves every other element, its volume included, as
it is; every volume it sets lies between 0 and 1. -/
theorem changeBlurbVolume_sets (doc : Document) (value : Int)
    (h0 : 0 ≤ value) (h100 : value ≤ 100) :
    (BlurbVolumeControl.onChangeBlurbVolume doc value).error = none ∧
    (BlurbVolumeControl.onChangeBlurbVolume doc value).doc.length = doc.length ∧
    (∀ (i : Nat) (el : Element), doc.get? i = some el →
      (BlurbVolumeControl.onChangeBlurbVolume doc value).doc.get? i =
        some (if el.classList.contains "blurb-source-audio".toList
          then { el with volume := (value : ℚ) / 100 } else el)) ∧
    ((42 : Int) : ℚ) / 100 = 0.42 ∧
    (∀ (i : Nat) (el2 : Element),
      (BlurbVolumeControl.onChangeBlurbVolume doc value).doc.get? i = some el2 →
      el2.classList.contains "blurb-source-audio".toList = true →
      0 ≤ el2.volume ∧ el2.volume ≤ 1) := by
  have hv : (0 : ℚ) ≤ (value : ℚ) / 100 ∧ (value : ℚ) / 100 ≤ 1 := by
    have h0q : (0 : ℚ) ≤ (value : ℚ) := by exact_mod_cast h0
    have h1q : (value : ℚ) ≤ 100 := by exact_mod_cast h100
    constructor
    · positivity
    · rw [div_le_one (by norm_num)]
      exact h1q
  obtain ⟨doc2, hrun, hlen2, hget2⟩ := setVolumes_of_inRange ((value : ℚ) / 100) hv
    (querySelectorAllClass doc "blurb-source-audio".toList) doc
  have hres : BlurbVolumeControl.onChangeBlurbVolume doc value
      = ⟨doc2, ["Set to ".toList ++ intToString value], none⟩ := by
    unfold BlurbVolumeControl.onChangeBlurbVolume
    simp only [hrun]
  have hget : ∀ (i : Nat) (el : Element), doc.get? i = some el →
      doc2.get? i = some (if el.classList.contains "blurb-source-audio".toList
          then { el with volume := (value : ℚ) / 100 } else el) := by
    intro i el hi
    rw [hget2 i, hi, Option.map_some']
    by_cases hc : el.classList.contains "blurb-source-audio".toList = true
    · rw [if_pos ((mem_querySelectorAllClass doc _ i el hi).2 hc), if_pos hc]
    · rw [if_neg (fun hm => hc ((mem_querySelectorAllClass doc _ i el hi).1 hm)), if_neg hc]
  rw [hres]
  refine ⟨rfl, hlen2, hget, by norm_num, ?_⟩
  intro i el2 hi hcls
  have hi2 : doc2.get? i = some el2 := hi
  have hlt : i < doc.length := by
    rcases Nat.lt_or_ge i doc.length with h | h
    · exact h
    · rw [← hlen2] at h
      rw [List.get?_eq_none.2 h] at hi2
      exact absurd hi2 (by simp)
  obtain ⟨el, hel⟩ : ∃ el, doc.get? i = some el := ⟨doc.get ⟨i, hlt⟩, List.get?_eq_get hlt⟩
  rw [hget i el hel] at hi2
  have hel2 := Option.some.inj hi2
  by_cases hc : el.classList.contains "blurb-source-audio".toList = true
  · rw [if_pos hc] at hel2
    rw [← hel2]
    exact hv
  · rw [if_neg hc] at hel2
    rw [← hel2] at hcls
    exact absurd hcls hc

/-- C9, evaluated: with value 42 an audio element of volume 1 gets volume 42 / 100, an
element without the class keeps its volume, and no exception is raised. -/
theorem changeBlurbVolume_sets_witness :
    (BlurbVolumeControl.onChangeBlurbVolume
        [audioElement "a".toList 1, textElement "x".toList] 42).error = none ∧
    (BlurbVolumeControl.onChangeBlurbVolume
        [audioElement "a".toList 1, textElement "x".toList] 42).doc.get? 0
      = some (audioElement "a".toList (((42 : Int) : ℚ) / 100)) ∧
    (BlurbVolumeControl.onChangeBlurbVolume
        [audioElement "a".toList 1, textElement "x".toList] 42).doc.get? 1
      = some (textElement "x".toList) :=
  ⟨(changeBlurbVolume_sets [audioElement "a".toList 1, textElement "x".toList] 42
      (by decide) (by decide)).1,
    (changeBlurbVolume_sets [audioElement "a".toList 1, textElement "x".toList] 42
      (by decide) (by decide)).2.2.1 0 (audioElement "a".toList 1) rfl,
    (changeBlurbVolume_sets [audioElement "a".toList 1, textElement "x".toList] 42
      (by decide) (by decide)).2.2.1 1 (textElement "x".toList) rfl⟩

/-- C9 as stated fails. With value 150 the setter of `volume` rejects 150 / 100 on the
first audio element: the handler ends with `IndexSizeError`, no volume is changed and
nothing is logged. -/
theorem changeBlurbVolume_counterexample :
    BlurbVolumeControl.onChangeBlurbVolume
        [audioElement "a".toList 1, audioElement "b".toList (1 / 2)] 150
      = ⟨[audioElement "a".toList 1, audioElement "b".toList (1 / 2)], [],
          some ⟨"IndexSizeError".toList⟩⟩ := by
  have hq : querySelectorAllClass [audioElement "a".toList 1, audioElement "b".toList (1 / 2)]
      "blurb-source-audio".toList = [0, 1] := by decide
  have hv : ¬ ((0 : ℚ) ≤ ((150 : Int) : ℚ) / 100 ∧ ((150 : Int) : ℚ) / 100 ≤ 1) := by
    norm_num
  unfold BlurbVolumeControl.onChangeBlurbVolume
  rw [hq]
  simp only [setVolumes, setVolumeAt, audioElement, Element.setVolume, hv, if_false]

end CaiApp
